import Mathlib

/-!
# Verification of the BitBox wallet core against its specification

Shallow embedding of the signing-critical core of the `bitbox-wallet-app`
repository: the USB transport framer (`devices/usb/communication.go`), the
device session (`devices/bitbox/device.go`) and the transaction signer
(`coins/btc/sign.go`).  Go byte slices are modelled as `List Nat` (each
element a byte value), Go maps as functions into `Option`, fallible Go code
as `Except`, and the stateful device I/O as explicit state passing: the
device is a function from a call index (or command) to its reply, and the
packets/commands written by the host are returned explicitly.
-/

namespace BitBox

/-! ## Transport framer (`devices/usb/communication.go`) -/

/-- `usbReportSize` from communication.go. -/
def usbReportSize : Nat := 64

/-- `hwwCMD = u2fHIDVendorFirst | 0x01 = 0x80 | 0x40 | 0x01` from communication.go. -/
def hwwCMD : Nat := 0xc1

/-- The `send` helper inside `sendFrame`: a packet shorter than the report
size is padded with the filler byte `0xee`. -/
def padPacket (l : List Nat) : List Nat :=
  l ++ List.replicate (usbReportSize - l.length) 0xee

/-- The continuation-frame loop of `sendFrame`: while the read buffer is
non-empty, emit a packet with a 5-byte header (channel id `0xff000000`,
sequence byte `uint8(seq)`) followed by the next 59 payload bytes, padded. -/
def contPackets (seq : Nat) (rest : List Nat) : List (List Nat) :=
  if h : rest = [] then []
  else
    padPacket ([0xff, 0, 0, 0, seq % 256] ++ rest.take 59)
      :: contPackets (seq + 1) (rest.drop 59)
termination_by rest.length
decreasing_by
  simp only [List.length_drop]
  exact Nat.sub_lt (List.length_pos.mpr h) (by norm_num)

/-- `sendFrame` from communication.go, as the list of 64-byte packets written
to the device.  A zero-length message writes nothing.  The init frame header
is the big-endian channel id `0xff000000`, the command byte `hwwCMD`, and the
big-endian 16-bit length `uint16(dataLen & 0xFFFF)`; the header (7 bytes) is
followed by the first 57 payload bytes and `0xee` padding. -/
def sendFrame (msg : List Nat) : List (List Nat) :=
  if msg.length = 0 then []
  else
    padPacket ([0xff, 0, 0, 0, hwwCMD,
        msg.length % 65536 / 256, msg.length % 65536 % 256] ++ msg.take 57)
      :: contPackets 0 (msg.drop 57)

/-- The continuation-read loop of `readFrame`: while fewer than `dataLen`
payload bytes have been counted, read the next packet, require at least 5
bytes, and append everything after the 5-byte header.  Each `Read` consumes
one packet of the transport; an empty transport is a read failure.  Returns
the accumulated data and the unconsumed packets. -/
def readContLoop : (packets : List (List Nat)) → (dataLen idx : Nat) → (acc : List Nat) →
    Except String (List Nat × List (List Nat))
  | [], dataLen, idx, acc =>
    if idx < dataLen then .error "read failed" else .ok (acc, [])
  | p :: rest, dataLen, idx, acc =>
    if idx < dataLen then
      if p.length < 5 then .error "expected minimum read length of 7"
      else readContLoop rest dataLen (idx + (p.length - 5)) (acc ++ p.drop 5)
    else .ok (acc, p :: rest)

/-- `readFrame` from communication.go.  Reads the first packet, validates the
channel id bytes and the command byte, extracts the 16-bit big-endian length
from bytes 5-6, and accumulates continuation packets.  Note the Go code sets
`idx := len(read) - 7` where `read` is the fixed 64-byte buffer, hence
`usbReportSize - 7`. -/
def readFrame (packets : List (List Nat)) : Except String (List Nat × List (List Nat)) :=
  match packets with
  | [] => .error "read failed"
  | p :: rest =>
    if p.length < 7 then .error "expected minimum read length of 7"
    else if p.getD 0 0 ≠ 0xff ∨ p.getD 1 0 ≠ 0 ∨ p.getD 2 0 ≠ 0 ∨ p.getD 3 0 ≠ 0 then
      .error "USB command ID mismatch"
    else if p.getD 4 0 ≠ hwwCMD then
      .error "USB command frame mismatch"
    else
      readContLoop rest (p.getD 5 0 * 256 + p.getD 6 0) (usbReportSize - 7) (p.drop 7)

/-- Total payload capacity of the continuation frames needed for `m` payload
bytes beyond the init frame: 59 bytes per frame, `⌈m / 59⌉` frames. -/
def contPadLen (m : Nat) : Nat := 59 * ((m + 58) / 59)

/-- The 16-bit length field declared in the first packet of a frame. -/
def declaredLen (packets : List (List Nat)) : Nat :=
  match packets with
  | [] => 0
  | p :: _ => p.getD 5 0 * 256 + p.getD 6 0

/-- All payload bytes carried by a frame's packets: everything after the
7-byte init header and after each 5-byte continuation header. -/
def sentPayload (packets : List (List Nat)) : List Nat :=
  match packets with
  | [] => []
  | p :: rest => p.drop 7 ++ (rest.map (fun q => q.drop 5)).flatten

/-! ### Framing lemmas -/

theorem padPacket_length {l : List Nat} (h : l.length ≤ usbReportSize) :
    (padPacket l).length = usbReportSize := by
  simp only [padPacket, List.length_append, List.length_replicate]
  omega

theorem drop5_cons (a b c d e : Nat) (t : List Nat) : (a :: b :: c :: d :: e :: t).drop 5 = t :=
  rfl

theorem padPacket_cons5 (a b c d e : Nat) (t : List Nat) :
    padPacket ([a, b, c, d, e] ++ t)
      = a :: b :: c :: d :: e ::
        (t ++ List.replicate (usbReportSize - (5 + t.length)) 0xee) := by
  simp [padPacket]
  omega

theorem padPacket_cons7 (a b c d e f g : Nat) (t : List Nat) :
    padPacket ([a, b, c, d, e, f, g] ++ t)
      = a :: b :: c :: d :: e :: f :: g ::
        (t ++ List.replicate (usbReportSize - (7 + t.length)) 0xee) := by
  simp [padPacket]
  omega

/-- Reading the continuation packets produced by `contPackets` accumulates the
whole remaining payload plus the `0xee` padding of the final packet, and
consumes the transport completely. -/
theorem readContLoop_contPackets :
    ∀ (n : Nat) (rest : List Nat) (seq idx : Nat) (acc : List Nat), rest.length ≤ n →
    readContLoop (contPackets seq rest) (idx + rest.length) idx acc
      = .ok (acc ++ rest ++ List.replicate (contPadLen rest.length - rest.length) 0xee, []) := by
  intro n
  induction n with
  | zero =>
    intro rest seq idx acc h
    have hr : rest = [] := List.length_eq_zero.mp (Nat.le_zero.mp h)
    subst hr
    rw [contPackets]
    simp [readContLoop, contPadLen]
  | succ n ih =>
    intro rest seq idx acc h
    by_cases hr : rest = []
    · subst hr
      rw [contPackets]
      simp [readContLoop, contPadLen]
    · have hm : 0 < rest.length := List.length_pos.mpr hr
      rw [contPackets, dif_neg hr, padPacket_cons5]
      have htlen : (rest.take 59).length = min 59 rest.length := List.length_take 59 rest
      rw [readContLoop]
      rw [if_pos (by omega)]
      have hplen : (0xff :: 0 :: 0 :: 0 :: seq % 256 ::
          (rest.take 59 ++ List.replicate (usbReportSize - (5 + (rest.take 59).length)) 0xee)).length
          = usbReportSize := by
        simp only [List.length_cons, List.length_append, List.length_replicate]
        simp only [usbReportSize] at htlen ⊢
        omega
      rw [hplen]
      rw [if_neg (by simp [usbReportSize])]
      rw [drop5_cons]
      by_cases h59 : rest.length ≤ 59
      · have ht : rest.take 59 = rest := List.take_of_length_le h59
        have hd : rest.drop 59 = [] := List.drop_eq_nil_of_le h59
        rw [ht, hd, contPackets]
        rw [dif_pos rfl]
        rw [readContLoop]
        rw [if_neg (by simp only [usbReportSize]; omega)]
        have hcount : usbReportSize - (5 + rest.length) = contPadLen rest.length - rest.length := by
          simp only [usbReportSize, contPadLen]
          omega
        rw [hcount, List.append_assoc]
      · have ht : (rest.take 59).length = 59 := by omega
        have hzero : usbReportSize - (5 + (rest.take 59).length) = 0 := by
          simp only [usbReportSize]
          omega
        rw [hzero]
        simp only [List.replicate_zero, List.append_nil]
        have hd : (rest.drop 59).length = rest.length - 59 := List.length_drop 59 rest
        have hrec := ih (rest.drop 59) (seq + 1) (idx + (usbReportSize - 5))
          (acc ++ rest.take 59) (by omega)
        have hidx : idx + (usbReportSize - 5) + (rest.drop 59).length = idx + rest.length := by
          simp only [usbReportSize]
          omega
        rw [hidx] at hrec
        rw [hrec]
        have hjoin : acc ++ rest.take 59 ++ rest.drop 59 = acc ++ rest := by
          rw [List.append_assoc, List.take_append_drop]
        have hcount : contPadLen (rest.drop 59).length - (rest.drop 59).length
            = contPadLen rest.length - rest.length := by
          simp only [contPadLen, hd]
          omega
        rw [hjoin, hcount]

/-- Helper: the exact result of running `readFrame` on the packets produced by
`sendFrame` for a message of length 1..65535. -/
theorem readFrame_sendFrame (msg : List Nat)
    (h1 : 1 ≤ msg.length) (h2 : msg.length ≤ 65535) :
    readFrame (sendFrame msg)
      = .ok (msg ++ List.replicate (57 + contPadLen (msg.length - 57) - msg.length) 0xee, []) := by
  rw [sendFrame, if_neg (by omega), padPacket_cons7, readFrame]
  have htlen : (msg.take 57).length = min 57 msg.length := List.length_take 57 msg
  have hplen : (0xff :: 0 :: 0 :: 0 :: hwwCMD :: msg.length % 65536 / 256 ::
      msg.length % 65536 % 256 ::
      (msg.take 57 ++ List.replicate (usbReportSize - (7 + (msg.take 57).length)) 0xee)).length
      = usbReportSize := by
    simp only [List.length_cons, List.length_append, List.length_replicate]
    simp only [usbReportSize] at htlen ⊢
    omega
  rw [hplen, if_neg (by simp [usbReportSize])]
  rw [if_neg (by simp)]
  rw [if_neg (by simp [hwwCMD])]
  have hgetD : ∀ (a b c d e f g : Nat) (t : List Nat),
      (a :: b :: c :: d :: e :: f :: g :: t).getD 5 0 = f ∧
      (a :: b :: c :: d :: e :: f :: g :: t).getD 6 0 = g := by
    intro a b c d e f g t
    constructor <;> rfl
  rw [(hgetD _ _ _ _ _ _ _ _).1, (hgetD _ _ _ _ _ _ _ _).2]
  have hdata : msg.length % 65536 / 256 * 256 + msg.length % 65536 % 256 = msg.length := by
    omega
  rw [hdata]
  have hdrop : (0xff :: 0 :: 0 :: 0 :: hwwCMD :: msg.length % 65536 / 256 ::
      msg.length % 65536 % 256 ::
      (msg.take 57 ++ List.replicate (usbReportSize - (7 + (msg.take 57).length)) 0xee)).drop 7
      = msg.take 57 ++ List.replicate (usbReportSize - (7 + (msg.take 57).length)) 0xee := rfl
  rw [hdrop]
  by_cases h57 : msg.length ≤ 57
  · have ht : msg.take 57 = msg := List.take_of_length_le h57
    have hd : msg.drop 57 = [] := List.drop_eq_nil_of_le h57
    rw [ht, hd, contPackets, dif_pos rfl, readContLoop]
    rw [if_neg (by simp only [usbReportSize]; omega)]
    have hcount : usbReportSize - (7 + msg.length) = 57 + contPadLen (msg.length - 57) - msg.length := by
      simp only [usbReportSize, contPadLen]
      omega
    rw [hcount]
  · have ht : (msg.take 57).length = 57 := by omega
    have hzero : usbReportSize - (7 + (msg.take 57).length) = 0 := by
      simp only [usbReportSize]
      omega
    rw [hzero]
    simp only [List.replicate_zero, List.append_nil]
    have hd : (msg.drop 57).length = msg.length - 57 := List.length_drop 57 msg
    have hrec := readContLoop_contPackets (msg.drop 57).length (msg.drop 57) 0
      (usbReportSize - 7) (msg.take 57) (Nat.le_refl _)
    have hidx : usbReportSize - 7 + (msg.drop 57).length = msg.length := by
      simp only [usbReportSize]
      omega
    rw [hidx] at hrec
    rw [hrec, List.take_append_drop]
    have hcount : contPadLen (msg.drop 57).length - (msg.drop 57).length
        = 57 + contPadLen (msg.length - 57) - msg.length := by
      simp only [contPadLen, hd]
      omega
    rw [hcount]

/-- **C1 (counterexample).** Sending the one-byte message `[42]` through the
framer and reading it back does not yield the original message: `readFrame`
returns the 57-byte init payload, i.e. the message followed by 56 `0xee`
filler bytes, because `readFrame` accumulates `read[7:readLen]` wholesale and
never truncates to the declared length. -/
theorem frame_roundtrip_counterexample :
    readFrame (sendFrame [42]) = .ok ([42] ++ List.replicate 56 0xee, [])
    ∧ ([42] ++ List.replicate 56 0xee : List Nat) ≠ [42] := by
  constructor
  · have h := readFrame_sendFrame [42] (by decide) (by decide)
    simpa [contPadLen] using h
  · simp

/-- **C1 (amended).** For every byte message of length 1..65535 (length 0
sends nothing; the 16-bit length field caps at 65535), sending the message
with `sendFrame` through a loopback transport and reading it back with
`readFrame` yields the original message followed by `0xee` filler bytes up to
the accumulated packet-payload boundary (57 bytes from the init packet plus
59 per continuation packet); in particular the first `len` bytes of the
received data are exactly the original message, and the round trip is exact
precisely when the message length lands on the boundary. -/
theorem frame_roundtrip_padded (msg : List Nat)
    (h1 : 1 ≤ msg.length) (h2 : msg.length ≤ 65535) :
    readFrame (sendFrame msg)
      = .ok (msg ++ List.replicate (57 + contPadLen (msg.length - 57) - msg.length) 0xee, [])
    ∧ (msg ++ List.replicate (57 + contPadLen (msg.length - 57) - msg.length) 0xee).take msg.length
      = msg := by
  refine ⟨readFrame_sendFrame msg h1 h2, ?_⟩
  have := List.take_left msg (List.replicate (57 + contPadLen (msg.length - 57) - msg.length)
    (0xee : Nat))
  exact this

theorem frame_roundtrip_witness :
    readFrame (sendFrame [1, 2, 3])
      = .ok ([1, 2, 3] ++ List.replicate (57 + contPadLen (3 - 57) - 3) 0xee, [])
    ∧ ([1, 2, 3] ++ List.replicate (57 + contPadLen (3 - 57) - 3) 0xee).take 3 = [1, 2, 3] :=
  frame_roundtrip_padded [1, 2, 3] (by decide) (by decide)

/-- The payload carried by the continuation packets is the remaining message
plus the final packet's `0xee` padding. -/
theorem contPackets_payload :
    ∀ (n : Nat) (rest : List Nat) (seq : Nat), rest.length ≤ n →
    ((contPackets seq rest).map (fun q => q.drop 5)).flatten
      = rest ++ List.replicate (contPadLen rest.length - rest.length) 0xee := by
  intro n
  induction n with
  | zero =>
    intro rest seq h
    have hr : rest = [] := List.length_eq_zero.mp (Nat.le_zero.mp h)
    subst hr
    rw [contPackets]
    simp [contPadLen]
  | succ n ih =>
    intro rest seq h
    by_cases hr : rest = []
    · subst hr
      rw [contPackets]
      simp [contPadLen]
    · rw [contPackets, dif_neg hr, padPacket_cons5]
      simp only [List.map_cons, List.flatten_cons, drop5_cons]
      by_cases h59 : rest.length ≤ 59
      · have ht : rest.take 59 = rest := List.take_of_length_le h59
        have hd : rest.drop 59 = [] := List.drop_eq_nil_of_le h59
        rw [ht, hd, contPackets, dif_pos rfl]
        have hm : 0 < rest.length := List.length_pos.mpr hr
        have hcount : usbReportSize - (5 + rest.length) = contPadLen rest.length - rest.length := by
          simp only [usbReportSize, contPadLen]
          omega
        rw [hcount]
        simp
      · have ht : (rest.take 59).length = min 59 rest.length := List.length_take 59 rest
        have hzero : usbReportSize - (5 + (rest.take 59).length) = 0 := by
          simp only [usbReportSize]
          omega
        rw [hzero]
        simp only [List.replicate_zero, List.append_nil]
        have hd : (rest.drop 59).length = rest.length - 59 := List.length_drop 59 rest
        rw [ih (rest.drop 59) (seq + 1) (by omega)]
        rw [← List.append_assoc, List.take_append_drop]
        have hcount : contPadLen (rest.drop 59).length - (rest.drop 59).length
            = contPadLen rest.length - rest.length := by
          simp only [contPadLen, hd]
          omega
        rw [hcount]

/-- **C10.** The length field of the init frame written by `sendFrame` is
`len(message) mod 2^16` (big-endian low 16 bits): for every message longer
than 65535 bytes, `sendFrame` still writes every payload byte to the device
(the concatenated packet payloads start with the full message) while
declaring a length that disagrees with the payload actually sent, rather
than failing. -/
theorem sendFrame_length_truncation (msg : List Nat) (h : 65535 < msg.length) :
    declaredLen (sendFrame msg) = msg.length % 65536
    ∧ msg.length % 65536 ≠ msg.length
    ∧ (sentPayload (sendFrame msg)).take msg.length = msg := by
  rw [sendFrame, if_neg (by omega), padPacket_cons7]
  have htlen : (msg.take 57).length = min 57 msg.length := List.length_take 57 msg
  have ht : (msg.take 57).length = 57 := by omega
  have hzero : usbReportSize - (7 + (msg.take 57).length) = 0 := by
    simp only [usbReportSize]
    omega
  rw [hzero]
  simp only [List.replicate_zero, List.append_nil]
  refine ⟨?_, by omega, ?_⟩
  · simp only [declaredLen]
    have h5 : ((0xff : Nat) :: 0 :: 0 :: 0 :: hwwCMD :: msg.length % 65536 / 256 ::
        msg.length % 65536 % 256 :: msg.take 57).getD 5 0 = msg.length % 65536 / 256 := rfl
    have h6 : ((0xff : Nat) :: 0 :: 0 :: 0 :: hwwCMD :: msg.length % 65536 / 256 ::
        msg.length % 65536 % 256 :: msg.take 57).getD 6 0 = msg.length % 65536 % 256 := rfl
    rw [h5, h6]
    omega
  · simp only [sentPayload]
    have hdrop : ((0xff : Nat) :: 0 :: 0 :: 0 :: hwwCMD :: msg.length % 65536 / 256 ::
        msg.length % 65536 % 256 :: msg.take 57).drop 7 = msg.take 57 := rfl
    rw [hdrop, contPackets_payload (msg.drop 57).length (msg.drop 57) 0 (Nat.le_refl _)]
    rw [← List.append_assoc, List.take_append_drop]
    exact List.take_left ..

theorem sendFrame_length_truncation_witness :
    declaredLen (sendFrame (List.replicate 65536 3)) = (List.replicate 65536 (3 : Nat)).length % 65536
    ∧ (List.replicate 65536 (3 : Nat)).length % 65536 ≠ (List.replicate 65536 (3 : Nat)).length
    ∧ (sentPayload (sendFrame (List.replicate 65536 3))).take (List.replicate 65536 (3 : Nat)).length
      = List.replicate 65536 3 :=
  sendFrame_length_truncation (List.replicate 65536 3) (by rw [List.length_replicate]; omega)

/-! ## Device session (`devices/bitbox/device.go`)

The device replies are modelled explicitly: each operation receives the
(already decoded) reply of the underlying `sendPlain`/`sendKV` round trip, or
for multi-round-trip operations a function from the call index to the reply.
Only the reply fields the Go code inspects are modelled. -/

/-- The device states returned by `Status()` (`status.go` constants). -/
inductive Status where
  | bootloader
  | uninitialized
  | initialized
  | loggedIn
  | seeded
deriving DecidableEq, Repr

/-- The session-relevant fields of the `Device` struct: `bootloaderStatus`
(a pointer, `some` iff the device is in bootloader mode), `initialized`,
`password` and `seeded`. -/
structure DeviceState where
  bootloaderStatus : Option Unit
  initialized : Bool
  password : String
  seeded : Bool
deriving DecidableEq, Repr

/-- `Status()` from device.go: bootloader if the bootloader status is set,
else seeded, else logged-in (non-empty password), else initialized, else
uninitialized. -/
def status (dbb : DeviceState) : Status :=
  if dbb.bootloaderStatus.isSome then .bootloader
  else if dbb.seeded then .seeded
  else if dbb.password ≠ "" then .loggedIn
  else if dbb.initialized then .initialized
  else .uninitialized

/-- A device error (`bitbox.Error`): a code and a message, as produced by
`maybeDBBErr` from a structured `error` reply. -/
structure Error where
  code : Int
  message : String
deriving DecidableEq, Repr

/-- Errors surfaced by device-session operations: either a typed device
error (`*bitbox.Error`) or a plain error (`errp.New`); `errp.Cause`'s cast
to `*Error` succeeds exactly on the `dev` constructor. -/
inductive DbbErr where
  | dev (e : Error)
  | generic (msg : String)
deriving DecidableEq, Repr

/-- Modelled from the spec: the device error code for a user abort of a
touch confirmation.  The code constants live in the repository's
`devices/bitbox` error definitions, which are not among the sources; only
the identity of the codes matters here. -/
def ErrTouchAbort : Int := 600

/-- Modelled from the spec: the device error code for a touch-confirmation
timeout (see `ErrTouchAbort`). -/
def ErrTouchTimeout : Int := 601

/-- `IsErrorAbort` from device.go: the error is a device error whose code is
`ErrTouchAbort` or `ErrTouchTimeout`. -/
def IsErrorAbort (err : DbbErr) : Bool :=
  match err with
  | .dev e => e.code = ErrTouchAbort || e.code = ErrTouchTimeout
  | .generic _ => false

/-- `SetPassword` from device.go.  `reply` is the result of
`sendPlain("password", password)`, with the value of the reply's
`"password"` field (`none` if absent or not a string).  On the success reply
the device password is adopted. -/
def SetPassword (dbb : DeviceState) (reply : Except DbbErr (Option String))
    (password : String) : Except DbbErr DeviceState :=
  match reply with
  | .error e => .error e
  | .ok r =>
    if r ≠ some "success" then .error (.generic "Unexpected reply")
    else .ok { dbb with password := password }

/-- `Reset` from device.go.  `reply` is the result of
`sendKV("reset", "__ERASE__", password)` with the value of the reply's
`"reset"` field.  A user-abort/timeout device error yields `(false, nil)`
with the session unchanged; success clears password, seeded and initialized. -/
def Reset (dbb : DeviceState) (reply : Except DbbErr (Option String)) :
    Except DbbErr (Bool × DeviceState) :=
  match reply with
  | .error err =>
    if IsErrorAbort err then .ok (false, dbb)
    else .error err
  | .ok r =>
    if r ≠ some "success" then .error (.generic "unexpected reply")
    else .ok (true, { dbb with password := "", seeded := false, initialized := false })

/-- The distinguished inconsistency error of `XPub`. -/
def xpubInconsistentErr : DbbErr :=
  .generic "Critical: the device returned inconsistent xpubs"

/-- The `getXPub` closure inside `XPub`: one `sendKV("xpub", path, password)`
round trip (`dev k` is the reply of the `k`-th round trip: the value of the
reply's `"xpub"` field, or a send error), followed by
`hdkeychain.NewKeyFromString` (the external parser `parse`).  Returns the
result together with the next round-trip index. -/
def getXPub {K : Type} (parse : String → Except String K)
    (dev : Nat → Except DbbErr (Option String)) (k : Nat) :
    Except DbbErr K × Nat :=
  (match dev k with
   | .error e => .error e
   | .ok none => .error (.generic "Unexpected reply")
   | .ok (some xpubStr) =>
     match parse xpubStr with
     | .error e => .error (.generic e)
     | .ok key => .ok key,
   k + 1)

/-- `XPub` from device.go: call the device twice; if the two parsed keys
serialize (`String()`, the external `keyString`) differently, fail with the
inconsistency error, otherwise return the first key.  The second component
counts the device round trips performed. -/
def XPub {K : Type} (parse : String → Except String K) (keyString : K → String)
    (dev : Nat → Except DbbErr (Option String)) : Except DbbErr K × Nat :=
  let r1 := getXPub parse dev 0
  match r1.1 with
  | .error e => (.error e, r1.2)
  | .ok xpub1 =>
    let r2 := getXPub parse dev r1.2
    match r2.1 with
    | .error e => (.error e, r2.2)
    | .ok xpub2 =>
      if keyString xpub1 ≠ keyString xpub2 then (.error xpubInconsistentErr, r2.2)
      else (.ok xpub1, r2.2)

/-! ### Device-session theorems -/

/-- **C6.** For every combination of the session fields, `status` returns the
unique state determined by the precedence order bootloader > seeded >
logged-in > initialized > uninitialized: each state is reported exactly for
the field combinations the precedence chain assigns to it. -/
theorem status_precedence (dbb : DeviceState) :
    (status dbb = .bootloader ↔ dbb.bootloaderStatus.isSome = true)
    ∧ (status dbb = .seeded ↔ dbb.bootloaderStatus.isSome = false ∧ dbb.seeded = true)
    ∧ (status dbb = .loggedIn ↔
        dbb.bootloaderStatus.isSome = false ∧ dbb.seeded = false ∧ dbb.password ≠ "")
    ∧ (status dbb = .initialized ↔
        dbb.bootloaderStatus.isSome = false ∧ dbb.seeded = false ∧ dbb.password = ""
          ∧ dbb.initialized = true)
    ∧ (status dbb = .uninitialized ↔
        dbb.bootloaderStatus.isSome = false ∧ dbb.seeded = false ∧ dbb.password = ""
          ∧ dbb.initialized = false) := by
  unfold status
  by_cases hb : dbb.bootloaderStatus.isSome <;>
    by_cases hs : dbb.seeded <;>
      by_cases hp : dbb.password = "" <;>
        by_cases hi : dbb.initialized <;>
          simp [hb, hs, hp, hi]

/-- **C5 (counterexample).** On a device in the `Uninitialized` state, a
successful `SetPassword` (success reply, password `"abc"`) leaves the
session in the `LoggedIn` state, not `Initialized`: `SetPassword` stores the
password directly, and a non-empty password takes precedence over the
`initialized` flag in `status`. -/
theorem setPassword_counterexample :
    status ⟨none, false, "", false⟩ = .uninitialized
    ∧ SetPassword ⟨none, false, "", false⟩ (.ok (some "success")) "abc"
        = .ok ⟨none, false, "abc", false⟩
    ∧ status ⟨none, false, "abc", false⟩ = .loggedIn
    ∧ Status.loggedIn ≠ Status.initialized := by
  refine ⟨by decide, ?_, by decide, by decide⟩
  rfl

/-- **C5 (amended).** After a successful `SetPassword` with a non-empty
password on a non-bootloader, non-seeded device (in particular on an
`Uninitialized` device), the session state reported by `status` is
`LoggedIn`, not `Initialized`: `SetPassword` adopts the password
immediately, so the session never passes through the `Initialized` state
(that state is only reported when a password was set in an earlier session
but the current session has not logged in). -/
theorem setPassword_status (dbb : DeviceState) (reply : Except DbbErr (Option String))
    (password : String) (dbb' : DeviceState)
    (hb : dbb.bootloaderStatus = none) (hs : dbb.seeded = false) (hp : password ≠ "")
    (h : SetPassword dbb reply password = .ok dbb') :
    status dbb' = .loggedIn := by
  unfold SetPassword at h
  match reply with
  | .error e => exact absurd h (by simp)
  | .ok r =>
    by_cases hr : r = some "success"
    · rw [hr] at h
      simp at h
      subst h
      unfold status
      simp [hb, hs, hp]
    · simp [hr] at h

theorem setPassword_status_witness :
    status ⟨none, false, "abc", false⟩ = .loggedIn :=
  setPassword_status ⟨none, false, "", false⟩ (.ok (some "success")) "abc"
    ⟨none, false, "abc", false⟩ rfl rfl (by decide) rfl

/-- **C7.** `Reset` returns `(false, nil)` — a "not completed" outcome with
the session unchanged, not an error — whenever the device reply is a
user-abort or touch-timeout device error; and whenever it returns `true`
the session state is back to `Uninitialized` on a non-bootloader device:
password cleared, seeded and initialized flags false. -/
theorem reset_abort_and_success (dbb : DeviceState) (reply : Except DbbErr (Option String))
    (hb : dbb.bootloaderStatus = none) :
    (∀ e : Error, reply = .error (.dev e) →
      e.code = ErrTouchAbort ∨ e.code = ErrTouchTimeout →
      Reset dbb reply = .ok (false, dbb))
    ∧ (∀ (b : Bool) (dbb' : DeviceState), Reset dbb reply = .ok (b, dbb') → b = true →
      dbb'.password = "" ∧ dbb'.seeded = false ∧ dbb'.initialized = false
        ∧ status dbb' = .uninitialized) := by
  constructor
  · intro e hre hcode
    subst hre
    unfold Reset IsErrorAbort
    rcases hcode with h | h <;> simp [h]
  · intro b dbb' h hb'
    subst hb'
    unfold Reset at h
    match hr : reply with
    | .error err =>
      by_cases ha : IsErrorAbort err
      · simp [ha] at h
      · simp [ha] at h
    | .ok r =>
      by_cases hsr : r = some "success"
      · rw [hsr] at h
        simp at h
        subst h
        refine ⟨rfl, rfl, rfl, ?_⟩
        unfold status
        simp [hb]
      · simp [hsr] at h

theorem reset_abort_witness :
    Reset ⟨none, true, "pw", true⟩ (.error (.dev ⟨600, "aborted by user"⟩))
      = .ok (false, ⟨none, true, "pw", true⟩) :=
  (reset_abort_and_success ⟨none, true, "pw", true⟩
      (.error (.dev ⟨600, "aborted by user"⟩)) rfl).1
    ⟨600, "aborted by user"⟩ rfl (Or.inl rfl)

/-- **C3.** `XPub` never short-circuits after the first read: whenever the
first read succeeds it performs exactly two device round trips; it returns a
key only when both reads succeed and their serializations agree (and then it
returns the first); and when both reads succeed but disagree it fails with
the distinguished inconsistency error, returning neither value. -/
theorem xpub_dual_read {K : Type} (parse : String → Except String K)
    (keyString : K → String) (dev : Nat → Except DbbErr (Option String)) :
    (∀ x1 : K, (getXPub parse dev 0).1 = .ok x1 → (XPub parse keyString dev).2 = 2)
    ∧ (∀ x : K, (XPub parse keyString dev).1 = .ok x →
        ∃ x2 : K, (getXPub parse dev 0).1 = .ok x ∧ (getXPub parse dev 1).1 = .ok x2
          ∧ keyString x = keyString x2)
    ∧ (∀ x1 x2 : K, (getXPub parse dev 0).1 = .ok x1 → (getXPub parse dev 1).1 = .ok x2 →
        keyString x1 ≠ keyString x2 →
        (XPub parse keyString dev).1 = .error xpubInconsistentErr
          ∧ ∀ y : K, (XPub parse keyString dev).1 ≠ .ok y) := by
  have hsnd : ∀ k, (getXPub parse dev k).2 = k + 1 := fun k => rfl
  refine ⟨?_, ?_, ?_⟩
  · intro x1 h1
    unfold XPub
    match h2 : (getXPub parse dev 1).1 with
    | .error e => simp [h1, h2, hsnd]
    | .ok x2 =>
      by_cases hne : keyString x1 ≠ keyString x2 <;> simp [h1, h2, hsnd, hne]
  · intro x h
    unfold XPub at h
    match h1 : (getXPub parse dev 0).1 with
    | .error e => simp [h1, hsnd] at h
    | .ok x1 =>
      match h2 : (getXPub parse dev 1).1 with
      | .error e => simp [h1, h2, hsnd] at h
      | .ok x2 =>
        by_cases hne : keyString x1 ≠ keyString x2
        · simp [h1, h2, hsnd, hne, xpubInconsistentErr] at h
        · simp [h1, h2, hsnd, hne] at h
          subst h
          exact ⟨x2, rfl, rfl, not_ne_iff.mp hne⟩
  · intro x1 x2 h1 h2 hne
    unfold XPub
    constructor
    · simp [h1, h2, hsnd, hne]
    · intro y
      simp [h1, h2, hsnd, hne]

theorem xpub_dual_read_witness :
    (XPub (fun s => Except.ok s) (fun s => s)
        (fun k => .ok (some (if k = 0 then "xpubA" else "xpubB")))).1
      = .error xpubInconsistentErr := by
  refine ((xpub_dual_read (fun s => Except.ok s) (fun s => s)
      (fun k => .ok (some (if k = 0 then "xpubA" else "xpubB")))).2.2 "xpubA" "xpubB"
      rfl rfl (by decide)).1

/-! ## Signing (`Sign`/`signBatch` in device.go)

The device is modelled as a function from the signing command and the
overall send index to the decoded reply; the commands actually sent are
returned alongside the result (explicit-state I/O). -/

/-- `signatureBatchSize` from device.go. -/
def signatureBatchSize : Nat := 15

/-- Hex digit value, as accepted by `big.Int.SetString` with base 16
(`0-9`, `a-f`, `A-F`). -/
def hexDigit? (c : Char) : Option Nat :=
  if '0' ≤ c ∧ c ≤ '9' then some (c.toNat - '0'.toNat)
  else if 'a' ≤ c ∧ c ≤ 'f' then some (c.toNat - 'a'.toNat + 10)
  else if 'A' ≤ c ∧ c ≤ 'F' then some (c.toNat - 'A'.toNat + 10)
  else none

/-- Accumulating hex parse of a digit run; fails on any non-digit. -/
def hexNatAux : List Char → Nat → Option Nat
  | [], acc => some acc
  | c :: rest, acc =>
    match hexDigit? c with
    | none => none
    | some d => hexNatAux rest (acc * 16 + d)

/-- Parse a non-empty run of hex digits. -/
def hexNat? (l : List Char) : Option Nat :=
  if l.isEmpty then none else hexNatAux l 0

/-- `big.Int.SetString(s, 16)` from math/big (the external parser used on
each signature half): an optional leading `+`/`-` sign followed by a
non-empty run of hex digits; no prefix or underscores are accepted for a
fixed base.  Note the sign IS accepted, so e.g. `"-0f"` parses. -/
def hexParse? (s : String) : Option Int :=
  match s.data with
  | '+' :: rest => (hexNat? rest).map (fun n => (n : Int))
  | '-' :: rest => (hexNat? rest).map (fun n => -(n : Int))
  | l => (hexNat? l).map (fun n => (n : Int))

/-- Lowercase hex encoding of a byte list (`hex.EncodeToString`). -/
def hexChar (n : Nat) : Char :=
  if n < 10 then Char.ofNat ('0'.toNat + n) else Char.ofNat ('a'.toNat + (n - 10))

/-- `hex.EncodeToString` from encoding/hex: two lowercase hex digits per byte. -/
def hexEncode (bytes : List Nat) : String :=
  String.mk (bytes.flatMap (fun b => [hexChar (b / 16), hexChar (b % 16)]))

/-- One element of the reply's `"sign"` array: not a JSON object, an object
without a string `"sig"` field, or an object with the string `"sig" = s`. -/
inductive SignElem where
  | notMap
  | noSig
  | sig (s : String)
deriving DecidableEq, Repr

/-- The decoded reply of a signing round trip: the `"sign"` field as a list
of elements, or `none` when the field is missing or not an array. -/
abbrev SignReply := Option (List SignElem)

/-- The `"data"` array of the signing command: one `(hex hash, keypath)`
entry per pair. -/
abbrev SignCmd := List (String × String)

/-- The signing command built by `signBatch`. -/
def signCmd (signatureHashes : List (List Nat)) (keyPaths : List String) : SignCmd :=
  List.zipWith (fun h kp => (hexEncode h, kp)) signatureHashes keyPaths

/-- The failure modes of `Sign`: the Go panics on caller errors (modelled as
distinguished error values), device errors from `send`, and malformed-reply
errors (`errp.New`). -/
inductive SignErr where
  | panicLenMismatch
  | panicEmpty
  | panicBatchSize
  | device (e : String)
  | badReply (msg : String)
deriving DecidableEq, Repr

/-- `signBatch` from device.go: after the two panic checks, build the
command and send it twice (the first reply is the echo and is discarded, the
second carries the signatures).  `dev cmd k` is the decoded reply of the
`k`-th overall `send` in this `Sign` call.  Returns the commands actually
sent together with the second reply. -/
def signBatch (dev : SignCmd → Nat → Except String SignReply) (k : Nat)
    (signatureHashes : List (List Nat)) (keyPaths : List String) :
    List SignCmd × Except SignErr SignReply :=
  if signatureHashes.length ≠ keyPaths.length then ([], .error .panicLenMismatch)
  else if signatureBatchSize < signatureHashes.length then ([], .error .panicBatchSize)
  else
    let cmd := signCmd signatureHashes keyPaths
    match dev cmd k with
    | .error e => ([cmd], .error (.device e))
    | .ok _ =>
      match dev cmd (k + 1) with
      | .error e => ([cmd, cmd], .error (.device e))
      | .ok reply => ([cmd, cmd], .ok reply)

/-- Parsing of one `"sign"` array element inside `Sign`'s reply loop:
requires a map with a string `"sig"` of exactly 128 characters whose two
64-character halves parse as base-16 big integers (R and S). -/
def parseSigEntry (e : SignElem) : Except String (Int × Int) :=
  match e with
  | .notMap => .error "Unexpected reply: sign must be a map"
  | .noSig => .error "Unexpected reply: field sig is missing in sign map"
  | .sig hexSig =>
    if hexSig.length ≠ 128 then .error "Unexpected reply: field sig must be 128 byte long"
    else
      match hexParse? (hexSig.take 64) with
      | none => .error "Unexpected reply: R in sig must be a hex value"
      | some sigR =>
        match hexParse? (hexSig.drop 64) with
        | none => .error "Unexpected reply: S in sig must be a hex value"
        | some sigS => .ok (sigR, sigS)

/-- The inner reply loop of `Sign` over one batch's `"sign"` array:
fail-fast, order-preserving. -/
def parseSigList : List SignElem → Except String (List (Int × Int))
  | [] => .ok []
  | e :: rest =>
    match parseSigEntry e with
    | .error msg => .error msg
    | .ok p =>
      match parseSigList rest with
      | .error msg => .error msg
      | .ok ps => .ok (p :: ps)

/-- Extraction of one batch's signatures from the reply: the `"sign"` field
must be present and every element must parse. -/
def parseSigs (reply : SignReply) : Except String (List (Int × Int)) :=
  match reply with
  | none => .error "Unexpected reply: field sign is missing"
  | some sigs => parseSigList sigs

/-- The batch loop of `Sign` (`for i := 0; i < len; i += signatureBatchSize`):
process the leading batch of at most 15 pairs, then the rest; `k` is the
overall send index; signatures accumulate across batches in input order. -/
def signLoop (dev : SignCmd → Nat → Except String SignReply) (k : Nat)
    (signatureHashes : List (List Nat)) (keyPaths : List String)
    (signatures : List (Int × Int)) : List SignCmd × Except SignErr (List (Int × Int)) :=
  if signatureHashes = [] then ([], .ok signatures)
  else
    let (cmds, r) := signBatch dev k (signatureHashes.take signatureBatchSize)
      (keyPaths.take signatureBatchSize)
    match r with
    | .error e => (cmds, .error e)
    | .ok reply =>
      match parseSigs reply with
      | .error msg => (cmds, .error (.badReply msg))
      | .ok sigs =>
        let (cmds', r') := signLoop dev (k + 2) (signatureHashes.drop signatureBatchSize)
          (keyPaths.drop signatureBatchSize) (signatures ++ sigs)
        (cmds ++ cmds', r')
termination_by signatureHashes.length
decreasing_by
  simp only [List.length_drop]
  exact Nat.sub_lt (List.length_pos.mpr (by assumption)) (by norm_num [signatureBatchSize])

/-- `Sign` from device.go: panics if the hash and keypath lists have
different lengths or are empty, then processes the pairs in batches of at
most 15, concatenating the parsed `(R, S)` signatures.  Returns the list of
commands sent to the device and the result. -/
def Sign (dev : SignCmd → Nat → Except String SignReply)
    (signatureHashes : List (List Nat)) (keyPaths : List String) :
    List SignCmd × Except SignErr (List (Int × Int)) :=
  if signatureHashes.length ≠ keyPaths.length then ([], .error .panicLenMismatch)
  else if signatureHashes.length = 0 then ([], .error .panicEmpty)
  else signLoop dev 0 signatureHashes keyPaths []

/-- Consecutive chunks of at most 15 elements, mirroring `Sign`'s batch
slicing. -/
def chunk15 {α : Type} (l : List α) : List (List α) :=
  if l.isEmpty then []
  else l.take signatureBatchSize :: chunk15 (l.drop signatureBatchSize)
termination_by l.length
decreasing_by
  simp only [List.length_drop]
  have h : l ≠ [] := by simp_all [List.isEmpty_iff]
  exact Nat.sub_lt (List.length_pos.mpr h) (by norm_num [signatureBatchSize])

/-! ### Signing lemmas -/

theorem parseSigList_map (f : String × String → String) (fr fs : String × String → Int)
    (hf128 : ∀ p, (f p).length = 128)
    (hfr : ∀ p, hexParse? ((f p).take 64) = some (fr p))
    (hfs : ∀ p, hexParse? ((f p).drop 64) = some (fs p)) :
    ∀ l : SignCmd, parseSigList (l.map (fun p => SignElem.sig (f p)))
      = .ok (l.map (fun p => (fr p, fs p))) := by
  intro l
  induction l with
  | nil => rfl
  | cons p rest ih =>
    simp only [List.map_cons, parseSigList, parseSigEntry]
    rw [if_neg (by rw [hf128 p]; omega), hfr p, hfs p, ih]

theorem chunk15_length {α : Type} :
    ∀ (n : Nat) (l : List α), l.length ≤ n →
    (chunk15 l).length = (l.length + 14) / 15 := by
  intro n
  induction n with
  | zero =>
    intro l h
    have hl : l = [] := List.length_eq_zero.mp (Nat.le_zero.mp h)
    subst hl
    rw [chunk15]
    simp
  | succ n ih =>
    intro l h
    by_cases hl : l.isEmpty
    · rw [List.isEmpty_iff] at hl
      subst hl
      rw [chunk15]
      simp
    · rw [chunk15, if_neg hl]
      rw [List.isEmpty_iff] at hl
      have hm : 0 < l.length := List.length_pos.mpr hl
      have hd : (l.drop signatureBatchSize).length = l.length - 15 := by
        simp [signatureBatchSize]
      rw [List.length_cons, ih (l.drop signatureBatchSize) (by omega), hd]
      omega

theorem signCmd_take (hashes : List (List Nat)) (keyPaths : List String) (n : Nat) :
    signCmd (hashes.take n) (keyPaths.take n) = (signCmd hashes keyPaths).take n := by
  simp [signCmd, List.take_zipWith]

theorem signCmd_drop (hashes : List (List Nat)) (keyPaths : List String) (n : Nat) :
    signCmd (hashes.drop n) (keyPaths.drop n) = (signCmd hashes keyPaths).drop n := by
  simp [signCmd, List.drop_zipWith]

theorem signCmd_length (hashes : List (List Nat)) (keyPaths : List String)
    (h : hashes.length = keyPaths.length) :
    (signCmd hashes keyPaths).length = hashes.length := by
  simp [signCmd, List.length_zipWith, h]

/-- With a well-behaved device (every send is answered by a reply carrying
one parsable `sig` per requested pair, given by `f`), the batch loop sends
each batch's command exactly twice and accumulates the parsed signatures in
input order. -/
theorem signLoop_good (dev : SignCmd → Nat → Except String SignReply)
    (f : String × String → String) (fr fs : String × String → Int)
    (hdev : ∀ cmd k, dev cmd k = .ok (some (cmd.map (fun p => SignElem.sig (f p)))))
    (hf128 : ∀ p, (f p).length = 128)
    (hfr : ∀ p, hexParse? ((f p).take 64) = some (fr p))
    (hfs : ∀ p, hexParse? ((f p).drop 64) = some (fs p)) :
    ∀ (n : Nat) (hashes : List (List Nat)) (keyPaths : List String)
      (k : Nat) (acc : List (Int × Int)),
    hashes.length ≤ n → hashes.length = keyPaths.length →
    signLoop dev k hashes keyPaths acc
      = ((chunk15 (signCmd hashes keyPaths)).flatMap (fun c => [c, c]),
         .ok (acc ++ (signCmd hashes keyPaths).map (fun p => (fr p, fs p)))) := by
  intro n
  induction n with
  | zero =>
    intro hashes keyPaths k acc h hlen
    have hl : hashes = [] := List.length_eq_zero.mp (Nat.le_zero.mp h)
    subst hl
    rw [signLoop, if_pos rfl]
    simp [signCmd, chunk15]
  | succ n ih =>
    intro hashes keyPaths k acc h hlen
    by_cases hl : hashes = []
    · subst hl
      rw [signLoop, if_pos rfl]
      simp [signCmd, chunk15]
    · have hm : 0 < hashes.length := List.length_pos.mpr hl
      rw [signLoop, if_neg hl]
      simp only [signatureBatchSize]
      have hbatch : signBatch dev k (hashes.take 15) (keyPaths.take 15)
          = ([(signCmd hashes keyPaths).take 15, (signCmd hashes keyPaths).take 15],
             .ok (some (((signCmd hashes keyPaths).take 15).map
               (fun p => SignElem.sig (f p))))) := by
        unfold signBatch
        rw [if_neg (by simp [List.length_take, hlen])]
        rw [if_neg (by simp only [List.length_take, signatureBatchSize]; omega)]
        rw [signCmd_take]
        simp only [hdev]
      rw [hbatch]
      simp only
      rw [show parseSigs (some (((signCmd hashes keyPaths).take 15).map
          (fun p => SignElem.sig (f p))))
          = parseSigList (((signCmd hashes keyPaths).take 15).map
              (fun p => SignElem.sig (f p))) from rfl]
      rw [parseSigList_map f fr fs hf128 hfr hfs]
      simp only
      have hrec := ih (hashes.drop 15) (keyPaths.drop 15)
        (k + 2) (acc ++ ((signCmd hashes keyPaths).take 15).map (fun p => (fr p, fs p)))
        (by simp only [List.length_drop]; omega)
        (by simp only [List.length_drop, hlen])
      simp only [signatureBatchSize] at hrec
      rw [hrec]
      simp only
      rw [signCmd_drop]
      have hcmdne : signCmd hashes keyPaths ≠ [] := by
        intro hc
        have h0 := signCmd_length hashes keyPaths hlen
        rw [hc] at h0
        simp_all
      have hchunk : chunk15 (signCmd hashes keyPaths)
          = (signCmd hashes keyPaths).take 15
            :: chunk15 ((signCmd hashes keyPaths).drop 15) := by
        rw [chunk15, if_neg (by simpa [List.isEmpty_iff] using hcmdne)]
        simp only [signatureBatchSize]
      rw [hchunk]
      simp only [List.flatMap_cons]
      rw [List.append_assoc, ← List.map_append, List.take_append_drop]

/-- **C2.** For every non-empty list of (hash, keyPath) pairs with equal
lengths, and a device answering each signing command with one parsable
signature per pair, `Sign` splits the pairs into consecutive batches of at
most 15, sends each batch's signing command exactly twice (echo then
signatures), performs `2 * ⌈n/15⌉` sends — so 15, 16 and 30 pairs produce
exactly 1, 2 and 2 batches — and returns the concatenated signatures in the
same order as the input pairs. -/
theorem sign_batching (dev : SignCmd → Nat → Except String SignReply)
    (f : String × String → String) (fr fs : String × String → Int)
    (signatureHashes : List (List Nat)) (keyPaths : List String)
    (hlen : signatureHashes.length = keyPaths.length) (hne : signatureHashes ≠ [])
    (hdev : ∀ cmd k, dev cmd k = .ok (some (cmd.map (fun p => SignElem.sig (f p)))))
    (hf128 : ∀ p, (f p).length = 128)
    (hfr : ∀ p, hexParse? ((f p).take 64) = some (fr p))
    (hfs : ∀ p, hexParse? ((f p).drop 64) = some (fs p)) :
    (Sign dev signatureHashes keyPaths).1
        = (chunk15 (signCmd signatureHashes keyPaths)).flatMap (fun c => [c, c])
    ∧ (Sign dev signatureHashes keyPaths).2
        = .ok ((signCmd signatureHashes keyPaths).map (fun p => (fr p, fs p)))
    ∧ (Sign dev signatureHashes keyPaths).1.length
        = 2 * ((signatureHashes.length + 14) / 15)
    ∧ (signatureHashes.length = 15 → (Sign dev signatureHashes keyPaths).1.length = 2 * 1)
    ∧ (signatureHashes.length = 16 → (Sign dev signatureHashes keyPaths).1.length = 2 * 2)
    ∧ (signatureHashes.length = 30 → (Sign dev signatureHashes keyPaths).1.length = 2 * 2) := by
  have hsign : Sign dev signatureHashes keyPaths
      = ((chunk15 (signCmd signatureHashes keyPaths)).flatMap (fun c => [c, c]),
         .ok ((signCmd signatureHashes keyPaths).map (fun p => (fr p, fs p)))) := by
    unfold Sign
    rw [if_neg (by omega), if_neg (by simp [hne])]
    have := signLoop_good dev f fr fs hdev hf128 hfr hfs signatureHashes.length
      signatureHashes keyPaths 0 [] (Nat.le_refl _) hlen
    simpa using this
  have hlen2 : (Sign dev signatureHashes keyPaths).1.length
      = 2 * ((signatureHashes.length + 14) / 15) := by
    rw [hsign]
    simp only [List.length_flatMap]
    have hmap : ∀ cs : List SignCmd,
        (cs.map (List.length ∘ fun c => [c, c])).sum = 2 * cs.length := by
      intro cs
      induction cs with
      | nil => rfl
      | cons c rest ih =>
        simp only [List.map_cons, List.sum_cons, ih, List.length_cons, Function.comp_apply]
        simp
        omega
    rw [hmap]
    rw [chunk15_length (signCmd signatureHashes keyPaths).length _ (Nat.le_refl _)]
    rw [signCmd_length signatureHashes keyPaths hlen]
  refine ⟨by rw [hsign], by rw [hsign], hlen2, ?_, ?_, ?_⟩
  all_goals intro hn; rw [hlen2, hn]

set_option maxRecDepth 100000 in
theorem sign_batching_witness :
    (Sign (fun cmd _ => .ok (some (cmd.map
          (fun _ => SignElem.sig (String.mk (List.replicate 128 '0'))))))
        (List.replicate 16 [0]) (List.replicate 16 "m/0")).1.length = 2 * 2 :=
  (sign_batching
      (fun cmd _ => .ok (some (cmd.map
        (fun _ => SignElem.sig (String.mk (List.replicate 128 '0'))))))
      (fun _ => String.mk (List.replicate 128 '0')) (fun _ => 0) (fun _ => 0)
      (List.replicate 16 [0]) (List.replicate 16 "m/0")
      (by simp) (by simp)
      (fun cmd k => rfl)
      (fun p => (by decide : (String.mk (List.replicate 128 '0')).length = 128))
      (fun p => (by decide :
        hexParse? ((String.mk (List.replicate 128 '0')).take 64) = some 0))
      (fun p => (by decide :
        hexParse? ((String.mk (List.replicate 128 '0')).drop 64) = some 0))).2.2.2.2.1
    (by simp)

/-- The reply loop rejects the whole batch when any `"sign"` element with a
`sig` string is too short, too long, or has a half that does not parse. -/
theorem parseSigList_error_of_bad :
    ∀ (elems : List SignElem) (s : String), SignElem.sig s ∈ elems →
    (s.length ≠ 128 ∨ hexParse? (s.take 64) = none ∨ hexParse? (s.drop 64) = none) →
    ∃ msg, parseSigList elems = .error msg := by
  intro elems
  induction elems with
  | nil =>
    intro s hmem _
    simp at hmem
  | cons e rest ih =>
    intro s hmem hbad
    match he : parseSigEntry e with
    | .error m =>
      refine ⟨m, ?_⟩
      simp [parseSigList, he]
    | .ok pr =>
      rcases List.mem_cons.mp hmem with hes | hmem'
      · exfalso
        subst hes
        simp only [parseSigEntry] at he
        by_cases hlen : s.length ≠ 128
        · rw [if_pos hlen] at he
          exact absurd he (by simp)
        · rw [if_neg hlen] at he
          rcases hbad with hb | hb | hb
          · exact hlen hb
          · rw [hb] at he
            exact absurd he (by simp)
          · match ht : hexParse? (s.take 64) with
            | none =>
              rw [ht] at he
              exact absurd he (by simp)
            | some r =>
              rw [ht, hb] at he
              exact absurd he (by simp)
      · obtain ⟨msg, hmsg⟩ := ih s hmem' hbad
        refine ⟨msg, ?_⟩
        simp [parseSigList, he, hmsg]

set_option maxRecDepth 100000 in
/-- **C8 (counterexample).** The signature field `"-000…0"` (a minus sign
followed by 127 zeros) has 128 characters but is not a string of 128 hex
characters; still, `Sign` accepts it and returns the signature `(0, 0)`,
because `big.Int::SetString` accepts an optional leading sign.  So `Sign`
does not fail on every signature field that is not exactly 128 hex
characters. -/
theorem sign_hex_counterexample :
    (String.mk ('-' :: List.replicate 127 '0')).length = 128
    ∧ ¬(∀ c ∈ (String.mk ('-' :: List.replicate 127 '0')).data, (hexDigit? c).isSome)
    ∧ (Sign (fun cmd _ => .ok (some (cmd.map
          (fun _ => SignElem.sig (String.mk ('-' :: List.replicate 127 '0'))))))
        [[0]] ["m/0"]).2 = .ok [(0, 0)] := by
  refine ⟨by decide, by decide, ?_⟩
  unfold Sign
  rw [if_neg (by decide), if_neg (by decide)]
  have h := signLoop_good
      (fun cmd _ => .ok (some (cmd.map
        (fun _ => SignElem.sig (String.mk ('-' :: List.replicate 127 '0'))))))
      (fun _ => String.mk ('-' :: List.replicate 127 '0')) (fun _ => 0) (fun _ => 0)
      (fun cmd k => rfl)
      (fun _ => (by decide : (String.mk ('-' :: List.replicate 127 '0')).length = 128))
      (fun _ => (by decide :
        hexParse? ((String.mk ('-' :: List.replicate 127 '0')).take 64) = some 0))
      (fun _ => (by decide :
        hexParse? ((String.mk ('-' :: List.replicate 127 '0')).drop 64) = some 0))
      1 [[0]] ["m/0"] 0 [] (by decide) (by decide)
  rw [h]
  rfl

/-- **C8 (amended).** `Sign` fails (with no signature list) whenever the hash
and keyPath list lengths differ or the list is empty (both are panics in the
Go code, modelled as distinguished failures); the reply loop rejects any
signature field whose length is not exactly 128 characters or whose
64-character halves do not parse in base 16 — but note the parser accepts an
optional leading sign, so a 128-character field such as `-000…0` that is not
pure hex is still accepted; a malformed reply or a device error in any
batch, including a later batch after earlier batches succeeded, fails the
whole call, and no partial signature list is ever returned. -/
theorem sign_failure_modes (dev : SignCmd → Nat → Except String SignReply)
    (signatureHashes : List (List Nat)) (keyPaths : List String) :
    (signatureHashes.length ≠ keyPaths.length →
      (Sign dev signatureHashes keyPaths).2 = .error .panicLenMismatch)
    ∧ (signatureHashes = [] → ∃ e, (Sign dev signatureHashes keyPaths).2 = .error e)
    ∧ (∀ (elems : List SignElem) (s : String), SignElem.sig s ∈ elems →
        (s.length ≠ 128 ∨ hexParse? (s.take 64) = none ∨ hexParse? (s.drop 64) = none) →
        ∃ msg, parseSigs (some elems) = .error msg)
    ∧ (∀ (r0 reply : SignReply) (msg : String),
        signatureHashes.length = keyPaths.length → signatureHashes ≠ [] →
        signatureHashes.length ≤ 15 →
        dev (signCmd signatureHashes keyPaths) 0 = .ok r0 →
        dev (signCmd signatureHashes keyPaths) 1 = .ok reply →
        parseSigs reply = .error msg →
        (Sign dev signatureHashes keyPaths).2 = .error (.badReply msg))
    ∧ (∀ (r0 r1 : SignReply) (sigs1 : List (Int × Int)) (e : String),
        signatureHashes.length = keyPaths.length → 15 < signatureHashes.length →
        dev (signCmd (signatureHashes.take 15) (keyPaths.take 15)) 0 = .ok r0 →
        dev (signCmd (signatureHashes.take 15) (keyPaths.take 15)) 1 = .ok r1 →
        parseSigs r1 = .ok sigs1 →
        dev (signCmd ((signatureHashes.drop 15).take 15) ((keyPaths.drop 15).take 15)) 2
          = .error e →
        (Sign dev signatureHashes keyPaths).2 = .error (.device e)) := by
  refine ⟨?_, ?_, ?_, ?_, ?_⟩
  · intro hne
    unfold Sign
    rw [if_pos hne]
  · intro he
    subst he
    unfold Sign
    by_cases hk : ([] : List (List Nat)).length ≠ keyPaths.length
    · rw [if_pos hk]
      exact ⟨_, rfl⟩
    · rw [if_neg hk]
      exact ⟨SignErr.panicEmpty, by simp⟩
  · intro elems s hmem hbad
    exact parseSigList_error_of_bad elems s hmem hbad
  · intro r0 reply msg hlen hne hle hdev0 hdev1 hparse
    unfold Sign
    rw [if_neg (by omega), if_neg (by simp [hne])]
    rw [signLoop, if_neg hne]
    simp only [signatureBatchSize]
    have htk : signatureHashes.take 15 = signatureHashes := List.take_of_length_le hle
    have htkp : keyPaths.take 15 = keyPaths := List.take_of_length_le (by omega)
    have hbatch : signBatch dev 0 (signatureHashes.take 15) (keyPaths.take 15)
        = ([signCmd signatureHashes keyPaths, signCmd signatureHashes keyPaths],
           .ok reply) := by
      unfold signBatch
      rw [htk, htkp]
      rw [if_neg (by omega), if_neg (by simp only [signatureBatchSize]; omega)]
      simp only [hdev0, Nat.zero_add, hdev1]
    rw [hbatch]
    simp only
    rw [hparse]
  · intro r0 r1 sigs1 e hlen h15 hdev0 hdev1 hparse hdev2
    unfold Sign
    rw [if_neg (by omega), if_neg (by intro hc; rw [List.length_eq_zero] at hc; simp [hc] at h15)]
    have hne : signatureHashes ≠ [] := by
      intro hc
      rw [hc] at h15
      simp at h15
    rw [signLoop, if_neg hne]
    simp only [signatureBatchSize]
    have hbatch : signBatch dev 0 (signatureHashes.take 15) (keyPaths.take 15)
        = ([signCmd (signatureHashes.take 15) (keyPaths.take 15),
            signCmd (signatureHashes.take 15) (keyPaths.take 15)],
           .ok r1) := by
      unfold signBatch
      rw [if_neg (by simp [List.length_take, hlen])]
      rw [if_neg (by simp only [List.length_take, signatureBatchSize]; omega)]
      simp only [hdev0, Nat.zero_add, hdev1]
    rw [hbatch]
    simp only
    rw [hparse]
    simp only
    have hdne : signatureHashes.drop 15 ≠ [] := by
      intro hc
      have : (signatureHashes.drop 15).length = 0 := by rw [hc]; rfl
      rw [List.length_drop] at this
      omega
    rw [signLoop, if_neg hdne]
    simp only [signatureBatchSize]
    have hbatch2 : signBatch dev 2 ((signatureHashes.drop 15).take 15)
        ((keyPaths.drop 15).take 15)
        = ([signCmd ((signatureHashes.drop 15).take 15) ((keyPaths.drop 15).take 15)],
           .error (.device e)) := by
      unfold signBatch
      rw [if_neg (by simp [List.length_take, List.length_drop, hlen])]
      rw [if_neg (by simp only [List.length_take, signatureBatchSize]; omega)]
      simp only [hdev2]
    rw [hbatch2]

theorem sign_failure_modes_witness :
    (Sign (fun _ _ => .error "no reply") [[0]] []).2 = .error .panicLenMismatch :=
  (sign_failure_modes (fun _ _ => .error "no reply") [[0]] []).1 (by decide)

/-! ## Key stretching (`stretchKey` in device.go) -/

/-- The UTF-8 bytes of a Go string (`[]byte(key)`). -/
def strBytes (s : String) : List Nat :=
  s.toUTF8.toList.map UInt8.toNat

/-- `stretchKey` from device.go.  The PBKDF2 derivation
(`pbkdf2.Key` from golang.org/x/crypto, a pure function of password, salt,
iteration count, key length) is passed as the parameter `pbkdf2Key`.  The
function derives the key twice with 20480 iterations, a 64-byte output and
the fixed salt `"Digital Bitbox"`, hex-encodes both, and panics
(`"memory error"`, modelled as `none`) if the two encodings differ. -/
def stretchKey (pbkdf2Key : List Nat → List Nat → Nat → Nat → List Nat)
    (key : String) : Option String :=
  let iterations := 20480
  let keylen := 64
  let first := hexEncode (pbkdf2Key (strBytes key) (strBytes "Digital Bitbox") iterations keylen)
  let second := hexEncode (pbkdf2Key (strBytes key) (strBytes "Digital Bitbox") iterations keylen)
  if first ≠ second then none
  else some first

/-- **C9.** `stretchKey` computes the same PBKDF2 derivation (20480
iterations, 64-byte output, fixed salt `"Digital Bitbox"`) twice over the
same password; since the derivation is a pure function, the two hex-encoded
results are always equal, the `"memory error"` panic branch is unreachable,
and `stretchKey` is a total deterministic function of the password, always
returning the hex encoding of the derived key. -/
theorem stretchKey_total (pbkdf2Key : List Nat → List Nat → Nat → Nat → List Nat)
    (key : String) :
    stretchKey pbkdf2Key key
      = some (hexEncode (pbkdf2Key (strBytes key) (strBytes "Digital Bitbox") 20480 64)) := by
  unfold stretchKey
  rw [if_neg (by simp)]

/-! ## Transaction signer (`coins/btc/sign.go`)

Transactions are modelled with the fields the embedded operations inspect
(`wire.MsgTx` fields such as version and locktime are untouched by the
code under verification and omitted).  The external btcsuite primitives —
sighash computation, the script-verification engine, the sighash cache —
are parameters; the BIP69 check `txsort.IsSorted` is embedded in full. -/

/-- `wire.OutPoint`: previous transaction hash (32 bytes, internal byte
order) and output index. -/
structure OutPoint where
  hash : List Nat
  index : Nat
deriving DecidableEq, Repr, Inhabited

/-- `wire.TxIn`, restricted to the fields the signer reads or writes. -/
structure TxIn where
  previousOutPoint : OutPoint
  signatureScript : List Nat
  witness : List (List Nat)
deriving DecidableEq, Repr, Inhabited

/-- `wire.TxOut`: an output's value and locking script. -/
structure TxOutput where
  value : Int
  pkScript : List Nat
deriving DecidableEq, Repr, Inhabited

/-- `wire.MsgTx`, restricted to inputs and outputs. -/
structure MsgTx where
  txIn : List TxIn
  txOut : List TxOutput
deriving DecidableEq, Repr, Inhabited

/-- The `addresses.Address` interface used by the signer (the addresses
package is a collaborator outside these sources): the key path, the
`SigHashData()` result (is-segwit flag and subscript), and `InputData`,
which builds the signature script and witness from a signature. -/
structure Address where
  keyPath : String
  sigHashData : Bool × List Nat
  inputData : Int × Int → List Nat × List (List Nat)

/-- `transactions.TxOut`: a spent previous output with its value, locking
script and owning address. -/
structure TxOut where
  value : Int
  pkScript : List Nat
  address : Address

/-- `bytes.Compare a b < 0`: strict lexicographic byte-list order. -/
def ltBytes : List Nat → List Nat → Bool
  | [], [] => false
  | [], _ :: _ => true
  | _ :: _, [] => false
  | a :: as, b :: bs => if a < b then true else if b < a then false else ltBytes as bs

/-- The input comparison of `txsort` (BIP69): equal previous-output hashes
compare by output index; otherwise the hashes are compared byte-reversed
(i.e. in big-endian display order). -/
def inputLess (a b : TxIn) : Bool :=
  if a.previousOutPoint.hash = b.previousOutPoint.hash then
    a.previousOutPoint.index < b.previousOutPoint.index
  else ltBytes a.previousOutPoint.hash.reverse b.previousOutPoint.hash.reverse

/-- The output comparison of `txsort` (BIP69): by value, then by locking
script bytes. -/
def outputLess (a b : TxOutput) : Bool :=
  if a.value = b.value then ltBytes a.pkScript b.pkScript else a.value < b.value

/-- `sort.IsSorted`: no adjacent pair is out of order. -/
def isSortedBy {α : Type} (less : α → α → Bool) : List α → Bool
  | [] => true
  | [_] => true
  | a :: b :: rest => (!(less b a)) && isSortedBy less (b :: rest)

/-- `txsort.IsSorted`: both the inputs and the outputs are in BIP69 order. -/
def txsortIsSorted (tx : MsgTx) : Bool :=
  isSortedBy inputLess tx.txIn && isSortedBy outputLess tx.txOut

/-- The failure modes of `SignTransaction`; the Go panics (missing previous
output, signature-count mismatch, failed validity check) are modelled as
distinguished failures. -/
inductive SignTxErr where
  | calcHash (e : String)
  | keyStore (e : String)
  | panicMissingOutput
  | panicSigCount
  | panicValidity (e : String)
deriving DecidableEq, Repr

/-- The per-input loop of `txValidityCheck`: each input must have a previous
output, and the script engine (`txscript.NewEngine(...).Execute()`, the
parameter `engineExec`) must succeed on its locking script and value. -/
def checkInputsLoop {H : Type}
    (engineExec : List Nat → MsgTx → Nat → Int → H → Except String Unit)
    (transaction : MsgTx) (previousOutputs : OutPoint → Option TxOut) (sigHashes : H) :
    Nat → List TxIn → Except String Unit
  | _, [] => .ok ()
  | index, txIn :: rest =>
    match previousOutputs txIn.previousOutPoint with
    | none => .error "output/input mismatch; there needs to be exactly one output being spent per input"
    | some spentOutput =>
      match engineExec spentOutput.pkScript transaction index spentOutput.value sigHashes with
      | .error e => .error e
      | .ok () => checkInputsLoop engineExec transaction previousOutputs sigHashes (index + 1) rest

/-- `txValidityCheck` from sign.go: the transaction must be BIP69-sorted,
and the script engine must succeed on every input. -/
def txValidityCheck {H : Type}
    (engineExec : List Nat → MsgTx → Nat → Int → H → Except String Unit)
    (transaction : MsgTx) (previousOutputs : OutPoint → Option TxOut) (sigHashes : H) :
    Except String Unit :=
  if ¬txsortIsSorted transaction then .error "tx not bip69 conformant"
  else checkInputsLoop engineExec transaction previousOutputs sigHashes 0 transaction.txIn

/-- The first loop of `SignTransaction`: compute the signature hash and key
path of each input — BIP143 witness hashes (`calcWitnessSigHash`, with the
precomputed cache) for segwit addresses, classic hashes
(`calcSignatureHash`) for legacy ones. -/
def computeHashesLoop {H : Type}
    (calcWitnessSigHash : List Nat → H → MsgTx → Nat → Int → Except String (List Nat))
    (calcSignatureHash : List Nat → MsgTx → Nat → Except String (List Nat))
    (sigHashes : H) (transaction : MsgTx) (previousOutputs : OutPoint → Option TxOut) :
    Nat → List TxIn → Except SignTxErr (List (List Nat) × List String)
  | _, [] => .ok ([], [])
  | index, txIn :: rest =>
    match previousOutputs txIn.previousOutPoint with
    | none => .error .panicMissingOutput
    | some spentOutput =>
      let hashRes :=
        if spentOutput.address.sigHashData.1 then
          calcWitnessSigHash spentOutput.address.sigHashData.2 sigHashes transaction index
            spentOutput.value
        else
          calcSignatureHash spentOutput.address.sigHashData.2 transaction index
      match hashRes with
      | .error e => .error (.calcHash e)
      | .ok signatureHash =>
        match computeHashesLoop calcWitnessSigHash calcSignatureHash sigHashes transaction
            previousOutputs (index + 1) rest with
        | .error e => .error e
        | .ok (hs, kps) => .ok (signatureHash :: hs, spentOutput.address.keyPath :: kps)

/-- The third loop of `SignTransaction`: rebuild each input's signature
script and witness from its signature via the owning address. -/
def assembleLoop (previousOutputs : OutPoint → Option TxOut) :
    List TxIn → List (Int × Int) → Except SignTxErr (List TxIn)
  | [], _ => .ok []
  | txIn :: rest, sig :: sigRest =>
    match previousOutputs txIn.previousOutPoint with
    | none => .error .panicMissingOutput
    | some spentOutput =>
      match assembleLoop previousOutputs rest sigRest with
      | .error e => .error e
      | .ok newRest =>
        let d := spentOutput.address.inputData sig
        .ok ({ txIn with signatureScript := d.1, witness := d.2 } :: newRest)
  | _ :: _, [] => .error .panicSigCount

/-- `SignTransaction` from sign.go: compute the per-input signature hashes,
delegate the ordered (hash, keyPath) lists to the keystore, check the
signature count, assemble the input scripts/witnesses in place, and run the
final validity check, whose failure is a panic. -/
def SignTransaction {H : Type} (newTxSigHashes : MsgTx → H)
    (calcWitnessSigHash : List Nat → H → MsgTx → Nat → Int → Except String (List Nat))
    (calcSignatureHash : List Nat → MsgTx → Nat → Except String (List Nat))
    (engineExec : List Nat → MsgTx → Nat → Int → H → Except String Unit)
    (keyStoreSign : List (List Nat) → List String → Except String (List (Int × Int)))
    (transaction : MsgTx) (previousOutputs : OutPoint → Option TxOut) :
    Except SignTxErr MsgTx :=
  let sigHashes := newTxSigHashes transaction
  match computeHashesLoop calcWitnessSigHash calcSignatureHash sigHashes transaction
      previousOutputs 0 transaction.txIn with
  | .error e => .error e
  | .ok (signatureHashes, keyPaths) =>
    match keyStoreSign signatureHashes keyPaths with
    | .error e => .error (.keyStore e)
    | .ok signatures =>
      if signatures.length ≠ transaction.txIn.length then .error .panicSigCount
      else
        match assembleLoop previousOutputs transaction.txIn signatures with
        | .error e => .error e
        | .ok newIns =>
          let transaction' := { transaction with txIn := newIns }
          match txValidityCheck engineExec transaction' previousOutputs sigHashes with
          | .error e => .error (.panicValidity e)
          | .ok () => .ok transaction'

/-! ### Transaction-signer lemmas -/

theorem checkInputsLoop_ok_iff {H : Type}
    (engineExec : List Nat → MsgTx → Nat → Int → H → Except String Unit)
    (t : MsgTx) (prev : OutPoint → Option TxOut) (sh : H) :
    ∀ (l : List TxIn) (i : Nat),
    checkInputsLoop engineExec t prev sh i l = .ok () ↔
    ∀ j, j < l.length → ∃ out, prev ((l.getD j default).previousOutPoint) = some out
      ∧ engineExec out.pkScript t (i + j) out.value sh = .ok () := by
  intro l
  induction l with
  | nil =>
    intro i
    simp [checkInputsLoop]
  | cons txIn rest ih =>
    intro i
    match hp : prev txIn.previousOutPoint with
    | none =>
      simp only [checkInputsLoop, hp]
      constructor
      · intro h
        exact absurd h (by simp)
      · intro h
        obtain ⟨out, hout, _⟩ := h 0 (by simp)
        rw [List.getD_cons_zero, hp] at hout
        exact absurd hout (by simp)
    | some out =>
      match he : engineExec out.pkScript t i out.value sh with
      | .error e =>
        simp only [checkInputsLoop, hp, he]
        constructor
        · intro h
          exact absurd h (by simp)
        · intro h
          obtain ⟨out', hout', heng'⟩ := h 0 (by simp)
          rw [List.getD_cons_zero, hp] at hout'
          have hoo : out = out' := by simpa using hout'
          subst hoo
          rw [Nat.add_zero, he] at heng'
          exact absurd heng' (by simp)
      | .ok u =>
        cases u
        simp only [checkInputsLoop, hp, he]
        rw [ih (i + 1)]
        constructor
        · intro h j hj
          match j with
          | 0 =>
            refine ⟨out, by simpa using hp, ?_⟩
            rw [Nat.add_zero]
            exact he
          | j' + 1 =>
            obtain ⟨out', hout', heng'⟩ := h j' (by simpa using hj)
            refine ⟨out', by simpa using hout', ?_⟩
            have harith : i + (j' + 1) = i + 1 + j' := by omega
            rw [harith]
            exact heng'
        · intro h j hj
          obtain ⟨out', hout', heng'⟩ := h (j + 1) (by simpa using hj)
          refine ⟨out', by simpa using hout', ?_⟩
          have harith : i + 1 + j = i + (j + 1) := by omega
          rw [harith]
          exact heng'

theorem assembleLoop_outPoints (previousOutputs : OutPoint → Option TxOut) :
    ∀ (ins : List TxIn) (sigs : List (Int × Int)) (newIns : List TxIn),
    assembleLoop previousOutputs ins sigs = .ok newIns →
    newIns.map (fun inp => inp.previousOutPoint) = ins.map (fun inp => inp.previousOutPoint) := by
  intro ins
  induction ins with
  | nil =>
    intro sigs newIns h
    match sigs with
    | [] =>
      simp only [assembleLoop, Except.ok.injEq] at h
      subst h
      rfl
    | _ :: _ =>
      simp only [assembleLoop, Except.ok.injEq] at h
      subst h
      rfl
  | cons txIn rest ih =>
    intro sigs newIns h
    match sigs with
    | [] => simp [assembleLoop] at h
    | sig :: sigRest =>
      simp only [assembleLoop] at h
      match hp : previousOutputs txIn.previousOutPoint with
      | none =>
        rw [hp] at h
        simp at h
      | some out =>
        rw [hp] at h
        match ha : assembleLoop previousOutputs rest sigRest with
        | .error e =>
          rw [ha] at h
          simp at h
        | .ok newRest =>
          rw [ha] at h
          simp only [Except.ok.injEq] at h
          subst h
          simp only [List.map_cons]
          rw [ih sigRest newRest ha]

/-- **C4.** The final validity check of `SignTransaction` verifies — but
does not impose — canonical BIP69 lexicographic input/output ordering, and
runs the script-verification engine for every input against its previous
output's locking script and value: the check rejects any unsorted
transaction, it passes exactly when the transaction is sorted and the
engine succeeds on every input's previous output, and the signing call
returns a transaction only when that transaction passed the check — with
its outputs and input outpoints exactly those of the input transaction
(only scripts/witnesses are filled in, nothing is reordered). -/
theorem signTransaction_validity {H : Type} (newTxSigHashes : MsgTx → H)
    (calcWitnessSigHash : List Nat → H → MsgTx → Nat → Int → Except String (List Nat))
    (calcSignatureHash : List Nat → MsgTx → Nat → Except String (List Nat))
    (engineExec : List Nat → MsgTx → Nat → Int → H → Except String Unit)
    (keyStoreSign : List (List Nat) → List String → Except String (List (Int × Int)))
    (transaction : MsgTx) (previousOutputs : OutPoint → Option TxOut) :
    (∀ (sh : H) (t : MsgTx), txsortIsSorted t = false →
      txValidityCheck engineExec t previousOutputs sh = .error "tx not bip69 conformant")
    ∧ (∀ (sh : H) (t : MsgTx), txValidityCheck engineExec t previousOutputs sh = .ok () ↔
        txsortIsSorted t = true ∧ ∀ j, j < t.txIn.length →
          ∃ out, previousOutputs ((t.txIn.getD j default).previousOutPoint) = some out
            ∧ engineExec out.pkScript t j out.value sh = .ok ())
    ∧ (∀ tx' : MsgTx,
        SignTransaction newTxSigHashes calcWitnessSigHash calcSignatureHash engineExec
          keyStoreSign transaction previousOutputs = .ok tx' →
        txValidityCheck engineExec tx' previousOutputs (newTxSigHashes transaction) = .ok ()
        ∧ tx'.txOut = transaction.txOut
        ∧ tx'.txIn.map (fun inp => inp.previousOutPoint)
            = transaction.txIn.map (fun inp => inp.previousOutPoint)) := by
  refine ⟨?_, ?_, ?_⟩
  · intro sh t hsort
    unfold txValidityCheck
    rw [if_pos (by simp [hsort])]
  · intro sh t
    unfold txValidityCheck
    by_cases hsort : txsortIsSorted t
    · rw [if_neg (by simp [hsort])]
      rw [checkInputsLoop_ok_iff engineExec t previousOutputs sh t.txIn 0]
      simp [hsort]
    · rw [if_pos (by simp [hsort])]
      constructor
      · intro h
        exact absurd h (by simp)
      · intro h
        exact absurd h.1 (by simp [hsort])
  · intro tx' h
    unfold SignTransaction at h
    match h1 : computeHashesLoop calcWitnessSigHash calcSignatureHash
        (newTxSigHashes transaction) transaction previousOutputs 0 transaction.txIn with
    | .error e => simp [h1] at h
    | .ok (hs, kps) =>
      match h2 : keyStoreSign hs kps with
      | .error e => simp [h1, h2] at h
      | .ok sigs =>
        by_cases hc : sigs.length ≠ transaction.txIn.length
        · simp [h1, h2, hc] at h
        · match h3 : assembleLoop previousOutputs transaction.txIn sigs with
          | .error e => simp [h1, h2, hc, h3] at h
          | .ok newIns =>
            match h4 : txValidityCheck engineExec { transaction with txIn := newIns }
                previousOutputs (newTxSigHashes transaction) with
            | .error e => simp [h1, h2, hc, h3, h4] at h
            | .ok () =>
              simp only [h1, h2, hc, h3, h4] at h
              simp at h
              subst h
              refine ⟨h4, rfl, ?_⟩
              exact assembleLoop_outPoints previousOutputs transaction.txIn sigs newIns h3

theorem signTransaction_validity_witness :
    txValidityCheck (fun _ _ _ _ _ => Except.ok ())
      (⟨[], [⟨2, []⟩, ⟨1, []⟩]⟩ : MsgTx) (fun _ => none) ()
      = .error "tx not bip69 conformant" :=
  (signTransaction_validity (fun _ => ()) (fun _ _ _ _ _ => Except.ok [])
      (fun _ _ _ => Except.ok []) (fun _ _ _ _ _ => Except.ok ())
      (fun _ _ => Except.ok []) ⟨[], []⟩ (fun _ => none)).1 ()
    ⟨[], [⟨2, []⟩, ⟨1, []⟩]⟩ (by decide)

end BitBox
